import Mathlib

set_option maxRecDepth 10000

/- Shallow embedding of src/src-tauri/src/encryption.rs and
   src/src-tauri/src/security.rs of the Moldavite repository.

   Rust strings are modelled as lists of their UTF-8 code-unit bytes
   (Nat values below 256).  Machine integers are Nat, reduced modulo
   2 ^ 32 or 2 ^ 64 exactly where the Rust u32 / u64 arithmetic of a
   release build wraps.  Instant is modelled as a Nat count of seconds
   (every duration constant of the source is a whole number of seconds),
   and each operation receives the Instant of its call explicitly. -/

/-- Error outcomes of encrypt_content / decrypt_content, one constructor
per distinct Err branch of the Rust source.  The source returns strings;
the constructor names follow the messages. -/
inductive CryptoError where
  | invalidFormat
  | nonceDecodeFailed
  | ciphertextDecodeFailed
  | saltParseFailed
  | keyTooShort
  | invalidNonceLength
  | decryptionFailed
  | utf8Error
  deriving DecidableEq

/-- Spec error taxonomy: MalformedEnvelope covers the wrong-field-count
and bad base64 / bad salt encoding failures of decrypt_content. -/
def CryptoError.isMalformedEnvelope : CryptoError → Bool
  | .invalidFormat => true
  | .nonceDecodeFailed => true
  | .ciphertextDecodeFailed => true
  | .saltParseFailed => true
  | _ => false

/-- Byte value of the base64 STANDARD alphabet character encoding a
sextet. -/
def b64Char (n : Nat) : Nat :=
  if n < 26 then 65 + n
  else if n < 52 then 97 + (n - 26)
  else if n < 62 then 48 + (n - 52)
  else if n = 62 then 43
  else 47

/-- Sextet value of a base64 STANDARD alphabet character, none for a byte
outside the alphabet (the padding byte 61 included). -/
def b64CharInv (c : Nat) : Option Nat :=
  if 65 ≤ c ∧ c ≤ 90 then some (c - 65)
  else if 97 ≤ c ∧ c ≤ 122 then some (26 + (c - 97))
  else if 48 ≤ c ∧ c ≤ 57 then some (52 + (c - 48))
  else if c = 43 then some 62
  else if c = 47 then some 63
  else none

/-- base64 STANDARD encoding with '=' padding (byte 61) of a byte list,
as produced by the base64 crate engine used in encryption.rs. -/
def base64Encode : List Nat → List Nat
  | [] => []
  | [a] => [b64Char (a / 4), b64Char (a % 4 * 16), 61, 61]
  | [a, b] => [b64Char (a / 4), b64Char (a % 4 * 16 + b / 16), b64Char (b % 16 * 4), 61]
  | a :: b :: c :: rest =>
      b64Char (a / 4) :: b64Char (a % 4 * 16 + b / 16) ::
        b64Char (b % 16 * 4 + c / 64) :: b64Char (c % 64) :: base64Encode rest

/-- base64 STANDARD decoding: requires canonical '=' padding, a multiple
of four characters, alphabet characters everywhere else, and zero unused
trailing bits, as the default strict configuration of the base64 crate
engine does. -/
def base64Decode : List Nat → Option (List Nat)
  | [] => some []
  | c0 :: c1 :: c2 :: c3 :: rest =>
      if c2 = 61 then
        if c3 = 61 ∧ rest = [] then
          match b64CharInv c0, b64CharInv c1 with
          | some s0, some s1 =>
              if s1 % 16 = 0 then some [s0 * 4 + s1 / 16] else none
          | _, _ => none
        else none
      else if c3 = 61 then
        if rest = [] then
          match b64CharInv c0, b64CharInv c1, b64CharInv c2 with
          | some s0, some s1, some s2 =>
              if s2 % 4 = 0 then
                some [s0 * 4 + s1 / 16, s1 % 16 * 16 + s2 / 4]
              else none
          | _, _, _ => none
        else none
      else
        match b64CharInv c0, b64CharInv c1, b64CharInv c2, b64CharInv c3,
            base64Decode rest with
        | some s0, some s1, some s2, some s3, some tl =>
            some ((s0 * 4 + s1 / 16) :: (s1 % 16 * 16 + s2 / 4) :: (s2 % 4 * 64 + s3) :: tl)
        | _, _, _, _, _ => none
  | _ => none

/-- Rust str.split on the '$' character (byte 36), collected to a vector:
always yields one more part than there are separators, so at least one
part, with empty parts kept. -/
def splitDollar : List Nat → List (List Nat)
  | [] => [[]]
  | c :: rest =>
      if c = 36 then [] :: splitDollar rest
      else
        match splitDollar rest with
        | [] => [[c]]
        | p :: ps => (c :: p) :: ps

/-- Character set of the PHC B64 salt encoding (base64 alphabet without
padding), used by SaltString. -/
def isB64Char (c : Nat) : Bool :=
  (65 ≤ c && c ≤ 90) || (97 ≤ c && c ≤ 122) || (48 ≤ c && c ≤ 57) || c == 43 || c == 47

/-- SaltString.from_b64: accepts a salt string of 4 to 64 B64 characters
and returns it unchanged (the SaltString value renders back to exactly
this text); anything else is a parse error. -/
def saltFromB64 (s : List Nat) : Option (List Nat) :=
  if 4 ≤ s.length ∧ s.length ≤ 64 ∧ s.all isB64Char then some s else none

/-- UTF-8 continuation byte test. -/
def isContByte (b : Nat) : Bool := 128 ≤ b && b ≤ 191

/-- The String.from_utf8 validity test: well-formed UTF-8, rejecting
overlong forms, surrogates and code points above 0x10FFFF, exactly as the
Rust standard library does. -/
def isValidUtf8 : List Nat → Bool
  | [] => true
  | b0 :: rest =>
      if b0 < 128 then isValidUtf8 rest
      else if b0 < 194 then false
      else if b0 < 224 then
        match rest with
        | b1 :: rest2 => isContByte b1 && isValidUtf8 rest2
        | [] => false
      else if b0 < 240 then
        match rest with
        | b1 :: b2 :: rest2 =>
            (if b0 = 224 then 160 ≤ b1 && b1 ≤ 191
             else if b0 = 237 then 128 ≤ b1 && b1 ≤ 159
             else isContByte b1) && isContByte b2 && isValidUtf8 rest2
        | _ => false
      else if b0 < 245 then
        match rest with
        | b1 :: b2 :: b3 :: rest2 =>
            (if b0 = 240 then 144 ≤ b1 && b1 ≤ 191
             else if b0 = 244 then 128 ≤ b1 && b1 ≤ 143
             else isContByte b1) && isContByte b2 && isContByte b3 && isValidUtf8 rest2
        | _ => false
      else false

/-- External cryptographic primitives used by encryption.rs: the Argon2id
hash (argon2 crate) and AES-256-GCM (aes_gcm crate).  They live outside
this repository, so the embedding is parameterized over them; each claim
states the library contract it relies on as an explicit hypothesis at the
used instance. -/
structure CryptoPrims where
  /-- argon2.hash_password output bytes for a password and a salt (the
  salt taken as its B64 text); deterministic in both, 32 bytes under the
  fixed hardened parameters. -/
  hashPassword : List Nat → List Nat → List Nat
  /-- cipher.encrypt: key, nonce, plaintext to ciphertext plus tag.  GCM
  encryption of byte input never fails at these sizes. -/
  aeadEncrypt : List Nat → List Nat → List Nat → List Nat
  /-- cipher.decrypt: key, nonce, ciphertext plus tag to plaintext, none
  exactly when tag verification fails. -/
  aeadDecrypt : List Nat → List Nat → List Nat → Option (List Nat)

/-- encrypt_content of encryption.rs with its two random draws (the salt
generated by SaltString.generate and the 12 random nonce bytes) passed
explicitly.  Derives the key, takes its first 32 bytes, encrypts, and
serializes salt, base64 nonce and base64 ciphertext joined by '$'
(byte 36).  Argon2 key derivation with the fixed valid parameters cannot
fail, so the only modelled Err branch is the too-short derived key. -/
def encrypt_content (M : CryptoPrims) (content password salt nonce : List Nat) :
    Except CryptoError (List Nat) :=
  let key_bytes := M.hashPassword password salt
  if key_bytes.length < 32 then .error .keyTooShort
  else
    let ciphertext := M.aeadEncrypt (key_bytes.take 32) nonce content
    .ok (salt ++ 36 :: (base64Encode nonce ++ 36 :: base64Encode ciphertext))

/-- decrypt_content of encryption.rs: split on '$' into exactly three
parts, base64-decode nonce then ciphertext, parse the salt, re-derive the
key, check the nonce length, AEAD-decrypt, and UTF-8 decode.  Each Err
branch of the source is a distinct CryptoError; the Lean function is
total, so every modelled input returns a value rather than panicking. -/
def decrypt_content (M : CryptoPrims) (encrypted password : List Nat) :
    Except CryptoError (List Nat) :=
  match splitDollar encrypted with
  | [salt_str, nonce_b64, ciphertext_b64] =>
      match base64Decode nonce_b64 with
      | none => .error .nonceDecodeFailed
      | some nonce_bytes =>
          match base64Decode ciphertext_b64 with
          | none => .error .ciphertextDecodeFailed
          | some ciphertext =>
              match saltFromB64 salt_str with
              | none => .error .saltParseFailed
              | some salt =>
                  let key_bytes := M.hashPassword password salt
                  if key_bytes.length < 32 then .error .keyTooShort
                  else if nonce_bytes.length ≠ 12 then .error .invalidNonceLength
                  else
                    match M.aeadDecrypt (key_bytes.take 32) nonce_bytes ciphertext with
                    | none => .error .decryptionFailed
                    | some plaintext =>
                        if isValidUtf8 plaintext then .ok plaintext
                        else .error .utf8Error
  | _ => .error .invalidFormat

/-- Maximum number of failed attempts before lockout (per note). -/
def MAX_ATTEMPTS : Nat := 5

/-- Maximum number of failed attempts globally before lockout. -/
def GLOBAL_MAX_ATTEMPTS : Nat := 15

/-- Base lockout duration in seconds (doubles with each lockout). -/
def BASE_LOCKOUT_SECS : Nat := 30

/-- Maximum lockout duration (10 minutes). -/
def MAX_LOCKOUT_SECS : Nat := 600

/-- Time after which the attempt counter resets (if no new attempts). -/
def ATTEMPT_RESET_SECS : Nat := 300

/-- The u32 modulus. -/
def U32 : Nat := 4294967296

/-- The u64 modulus. -/
def U64 : Nat := 18446744073709551616

/-- Attempt record of security.rs.  AttemptInfo (per note) and
GlobalAttemptInfo have exactly these four fields, so one structure models
both; attempts and lockout_count are u32, timestamps are Instants in
seconds. -/
structure AttemptInfo where
  attempts : Nat
  last_attempt : Nat
  locked_until : Option Nat
  lockout_count : Nat
  deriving DecidableEq

/-- AttemptInfo.new: the record or_insert_with creates, stamped with the
Instant of the creating call. -/
def AttemptInfo.new (now : Nat) : AttemptInfo :=
  { attempts := 0, last_attempt := now, locked_until := none, lockout_count := 0 }

/-- Result of a rate limit check (RateLimitResult of security.rs). -/
structure RateLimitResult where
  allowed : Bool
  retry_after_secs : Option Nat
  remaining_attempts : Option Nat
  deriving DecidableEq

/-- The two shared trackers of security.rs: the per-note HashMap (as an
association list with distinct keys) and the single global record. -/
structure LimiterState where
  tracker : List (String × AttemptInfo)
  globalInfo : AttemptInfo
  deriving DecidableEq

/-- The process-start state of the lazy_static trackers: empty map, fresh
global record stamped at time 0. -/
def initState : LimiterState :=
  { tracker := [], globalInfo := AttemptInfo.new 0 }

/-- HashMap.get on the association list. -/
def lookupInfo : List (String × AttemptInfo) → String → Option AttemptInfo
  | [], _ => none
  | e :: rest, k => if e.1 = k then some e.2 else lookupInfo rest k

/-- HashMap.remove on the association list. -/
def removeKey (k : String) : List (String × AttemptInfo) → List (String × AttemptInfo)
  | [] => []
  | e :: rest => if e.1 = k then removeKey k rest else e :: removeKey k rest

/-- HashMap.insert on the association list (replacing any previous
binding of the key). -/
def insertInfo (k : String) (v : AttemptInfo) (l : List (String × AttemptInfo)) :
    List (String × AttemptInfo) :=
  (k, v) :: removeKey k l

/-- The failed-attempt update that record_failed_attempt performs, first
on the global record (threshold GLOBAL_MAX_ATTEMPTS) and then on the
per-note record (threshold MAX_ATTEMPTS): reset the counter and clear the
lockout if the record has been idle longer than the reset window, then
increment the counter (u32) and stamp the time, then, at the threshold,
compute the exponential-backoff lockout (u64 arithmetic, wrapping in a
release build), store its expiry, bump the lockout count (u32) and report
the lockout seconds. -/
def failStep (maxA now : Nat) (info : AttemptInfo) : Option Nat × AttemptInfo :=
  let info1 :=
    if now - info.last_attempt > ATTEMPT_RESET_SECS then
      { info with attempts := 0, locked_until := none }
    else info
  let info2 := { info1 with attempts := (info1.attempts + 1) % U32, last_attempt := now }
  if maxA ≤ info2.attempts then
    let lockout_multiplier := 2 ^ info2.lockout_count % U64
    let lockout_secs := min (BASE_LOCKOUT_SECS * lockout_multiplier % U64) MAX_LOCKOUT_SECS
    (some lockout_secs,
     { info2 with
        locked_until := some (now + lockout_secs),
        lockout_count := (info2.lockout_count + 1) % U32 })
  else (none, info2)

/-- record_failed_attempt of security.rs: update the global record first
and return at once if the global lockout triggers (the per-note tracker
is not touched on that path); otherwise fetch or create the per-note
record, update it the same way, and report either its freshly triggered
lockout or the remaining attempts. -/
def record_failed_attempt (now : Nat) (note_id : String) (st : LimiterState) :
    RateLimitResult × LimiterState :=
  match failStep GLOBAL_MAX_ATTEMPTS now st.globalInfo with
  | (some lockout_secs, g1) =>
      ({ allowed := false, retry_after_secs := some lockout_secs,
         remaining_attempts := some 0 },
       { st with globalInfo := g1 })
  | (none, g1) =>
      let info := (lookupInfo st.tracker note_id).getD (AttemptInfo.new now)
      match failStep MAX_ATTEMPTS now info with
      | (some lockout_secs, info1) =>
          ({ allowed := false, retry_after_secs := some lockout_secs,
             remaining_attempts := some 0 },
           { tracker := insertInfo note_id info1 st.tracker, globalInfo := g1 })
      | (none, info1) =>
          ({ allowed := true, retry_after_secs := none,
             remaining_attempts := some (MAX_ATTEMPTS - info1.attempts) },
           { tracker := insertInfo note_id info1 st.tracker, globalInfo := g1 })

/-- cleanup_old_entries of security.rs: retain the entries that are
currently locked out or whose last attempt is younger than twice the
reset window. -/
def cleanup_old_entries (now : Nat) (tracker : List (String × AttemptInfo)) :
    List (String × AttemptInfo) :=
  tracker.filter fun e =>
    (match e.2.locked_until with
     | some lu => decide (now < lu)
     | none => false)
    || decide (now - e.2.last_attempt < ATTEMPT_RESET_SECS * 2)

/-- The global gate of check_rate_limit: the stored global lockout denies
(with its rounded-up remaining seconds) only when it has not expired AND
the global record has been active within the reset window; an idle global
record skips the lockout test altogether (source lines 102 to 113). -/
def globalLockBlock (now : Nat) (g : AttemptInfo) : Option Nat :=
  if now - g.last_attempt > ATTEMPT_RESET_SECS then none
  else
    match g.locked_until with
    | some lu => if now < lu then some (lu - now + 1) else none
    | none => none

/-- Remaining per-note attempts reported by check_rate_limit for an
existing record. -/
def remainingOf (info : AttemptInfo) : Nat :=
  if MAX_ATTEMPTS ≤ info.attempts then 0 else MAX_ATTEMPTS - info.attempts

/-- check_rate_limit of security.rs: the global gate first (returning
denied without touching any state), then an opportunistic sweep of the
per-note store, then the per-note lockout test and remaining-attempt
report.  The per-note lockout, unlike the global one, denies regardless
of idle time. -/
def check_rate_limit (now : Nat) (note_id : String) (st : LimiterState) :
    RateLimitResult × LimiterState :=
  match globalLockBlock now st.globalInfo with
  | some retry =>
      ({ allowed := false, retry_after_secs := some retry, remaining_attempts := none }, st)
  | none =>
      let tracker := cleanup_old_entries now st.tracker
      match lookupInfo tracker note_id with
      | some info =>
          match info.locked_until with
          | some lu =>
              if now < lu then
                ({ allowed := false, retry_after_secs := some (lu - now + 1),
                   remaining_attempts := none },
                 { st with tracker := tracker })
              else
                ({ allowed := true, retry_after_secs := none,
                   remaining_attempts := some (remainingOf info) },
                 { st with tracker := tracker })
          | none =>
              ({ allowed := true, retry_after_secs := none,
                 remaining_attempts := some (remainingOf info) },
               { st with tracker := tracker })
      | none =>
          ({ allowed := true, retry_after_secs := none,
             remaining_attempts := some MAX_ATTEMPTS },
           { st with tracker := tracker })

/-- record_successful_attempt of security.rs: remove the per-note record;
the global record is not touched. -/
def record_successful_attempt (note_id : String) (st : LimiterState) : LimiterState :=
  { st with tracker := removeKey note_id st.tracker }

/-- A sequence of record_failed_attempt calls on one note id at the given
times, collecting the returned admissions. -/
def recordFailSeq (note_id : String) : List Nat → LimiterState →
    List RateLimitResult × LimiterState
  | [], st => ([], st)
  | t :: ts, st =>
      let (r, st1) := record_failed_attempt t note_id st
      let (rs, st2) := recordFailSeq note_id ts st1
      (r :: rs, st2)

/-- The lockout durations assigned by successive failStep updates of one
record at the given times (per-note record under threshold MAX_ATTEMPTS,
global record under GLOBAL_MAX_ATTEMPTS). -/
def lockoutTrace (maxA : Nat) : List Nat → AttemptInfo → List Nat
  | [], _ => []
  | t :: ts, info =>
      match failStep maxA t info with
      | (some L, info1) => L :: lockoutTrace maxA ts info1
      | (none, info1) => lockoutTrace maxA ts info1

/-- Trivial instantiation of the external crypto primitives, for
evaluating the envelope pipeline on concrete inputs: a constant derived
key and an identity AEAD. -/
def idPrims : CryptoPrims :=
  { hashPassword := fun _ _ => List.replicate 32 0
    aeadEncrypt := fun _ _ pt => pt
    aeadDecrypt := fun _ _ ct => some ct }

/-- Key-tagging instantiation of the external crypto primitives: the
derived key is the password padded to 32 bytes, the ciphertext carries
the key, and decryption verifies the key, failing under any other one. -/
def tagPrims : CryptoPrims :=
  { hashPassword := fun pw _ => (pw ++ List.replicate 32 0).take 32
    aeadEncrypt := fun k _ pt => k ++ pt
    aeadDecrypt := fun k _ ct => if ct.take 32 = k then some (ct.drop 32) else none }

deriving instance DecidableEq for Except

/-- Every base64 alphabet character below 64 decodes back to its
sextet. -/
theorem b64CharInv_b64Char : ∀ n, n < 64 → b64CharInv (b64Char n) = some n := by decide

/-- The base64 alphabet never produces the padding byte. -/
theorem b64Char_ne_pad (n : Nat) : b64Char n ≠ 61 := by
  unfold b64Char; split_ifs <;> omega

/-- The base64 alphabet never produces the '$' byte. -/
theorem b64Char_ne_dollar (n : Nat) : b64Char n ≠ 36 := by
  unfold b64Char; split_ifs <;> omega

/-- base64 output never contains the '$' separator byte. -/
theorem base64Encode_not_dollar : (bs : List Nat) → 36 ∉ base64Encode bs
  | [] => by simp [base64Encode]
  | [a] => by
      simp [base64Encode]
      exact ⟨(b64Char_ne_dollar _).symm, (b64Char_ne_dollar _).symm⟩
  | [a, b] => by
      simp [base64Encode]
      exact ⟨(b64Char_ne_dollar _).symm, (b64Char_ne_dollar _).symm, (b64Char_ne_dollar _).symm⟩
  | a :: b :: c :: rest => by
      have ih := base64Encode_not_dollar rest
      simp [base64Encode]
      exact ⟨(b64Char_ne_dollar _).symm, (b64Char_ne_dollar _).symm, (b64Char_ne_dollar _).symm,
        (b64Char_ne_dollar _).symm, ih⟩

/-- Strict base64 decoding inverts base64 encoding on byte lists. -/
theorem base64_roundtrip : (bs : List Nat) → (∀ b ∈ bs, b < 256) →
    base64Decode (base64Encode bs) = some bs
  | [], _ => rfl
  | [a], h => by
      have ha : a < 256 := h a (by simp)
      have h0 := b64CharInv_b64Char (a / 4) (by omega)
      have h1 := b64CharInv_b64Char (a % 4 * 16) (by omega)
      simp [base64Encode, base64Decode, h0, h1]
      omega
  | [a, b], h => by
      have ha : a < 256 := h a (by simp)
      have hb : b < 256 := h b (by simp)
      have h0 := b64CharInv_b64Char (a / 4) (by omega)
      have h1 := b64CharInv_b64Char (a % 4 * 16 + b / 16) (by omega)
      have h2 := b64CharInv_b64Char (b % 16 * 4) (by omega)
      simp [base64Encode, base64Decode, b64Char_ne_pad, h0, h1, h2]
      omega
  | a :: b :: c :: rest, h => by
      have ha : a < 256 := h a (by simp)
      have hb : b < 256 := h b (by simp)
      have hc : c < 256 := h c (by simp)
      have ih := base64_roundtrip rest (fun x hx => h x (by simp [hx]))
      have h0 := b64CharInv_b64Char (a / 4) (by omega)
      have h1 := b64CharInv_b64Char (a % 4 * 16 + b / 16) (by omega)
      have h2 := b64CharInv_b64Char (b % 16 * 4 + c / 64) (by omega)
      have h3 := b64CharInv_b64Char (c % 64) (by omega)
      simp [base64Encode, base64Decode, b64Char_ne_pad, h0, h1, h2, h3, ih]
      refine ⟨by omega, by omega, by omega⟩

/-- Splitting a '$'-free list yields that single part. -/
theorem splitDollar_no_sep : (xs : List Nat) → 36 ∉ xs → splitDollar xs = [xs]
  | [], _ => rfl
  | c :: rest, h => by
      have hc : c ≠ 36 := fun e => h (by simp [e])
      have ih := splitDollar_no_sep rest (fun m => h (by simp [m]))
      simp [splitDollar, hc, ih]

/-- Splitting past a '$'-free prefix peels it off as the first part. -/
theorem splitDollar_append : (xs : List Nat) → 36 ∉ xs → ∀ t,
    splitDollar (xs ++ 36 :: t) = xs :: splitDollar t
  | [], _, t => by simp [splitDollar]
  | c :: rest, h, t => by
      have hc : c ≠ 36 := fun e => h (by simp [e])
      have ih := splitDollar_append rest (fun m => h (by simp [m])) t
      simp [splitDollar, hc, ih]

/-- The three-field envelope splits into exactly its three parts when no
part contains '$'. -/
theorem splitDollar_envelope (s n c : List Nat) (hs : 36 ∉ s) (hn : 36 ∉ n)
    (hc : 36 ∉ c) : splitDollar (s ++ 36 :: (n ++ 36 :: c)) = [s, n, c] := by
  rw [splitDollar_append s hs, splitDollar_append n hn, splitDollar_no_sep c hc]

/-- A salt accepted by saltFromB64 contains no '$' byte. -/
theorem saltFromB64_not_dollar (s t : List Nat) (h : saltFromB64 s = some t) :
    36 ∉ s := by
  unfold saltFromB64 at h
  split at h
  · rename_i hcond
    intro hmem
    have hall := List.all_eq_true.mp hcond.2.2 36 hmem
    simp [isB64Char] at hall
  · simp at h
/-- C1: for every plaintext (modelled as its UTF-8 bytes, empty and
'$'-containing plaintexts included) and every password, decrypting the
encryption of the plaintext with the same password succeeds and returns
exactly the plaintext.  The hypotheses state what the external libraries
guarantee at this call: the generated salt parses back (SaltString
round-trips), the generated nonce is 12 bytes, the Argon2 hash is at
least 32 bytes, AEAD output is bytes, and AEAD decryption with the same
key and nonce inverts AEAD encryption. -/
theorem C1_round_trip (M : CryptoPrims) (content password salt nonce : List Nat)
    (hutf : isValidUtf8 content = true)
    (hsalt : saltFromB64 salt = some salt)
    (hnl : nonce.length = 12)
    (hnb : ∀ b ∈ nonce, b < 256)
    (hkey : 32 ≤ (M.hashPassword password salt).length)
    (hct : ∀ b ∈ M.aeadEncrypt ((M.hashPassword password salt).take 32) nonce content,
      b < 256)
    (haead : M.aeadDecrypt ((M.hashPassword password salt).take 32) nonce
        (M.aeadEncrypt ((M.hashPassword password salt).take 32) nonce content)
      = some content) :
    Except.bind (encrypt_content M content password salt nonce)
      (fun env => decrypt_content M env password) = Except.ok content := by
  unfold encrypt_content
  rw [if_neg (by omega)]
  show decrypt_content M _ password = Except.ok content
  unfold decrypt_content
  rw [splitDollar_envelope _ _ _ (saltFromB64_not_dollar _ _ hsalt)
    (base64Encode_not_dollar _) (base64Encode_not_dollar _)]
  simp only [base64_roundtrip nonce hnb, base64_roundtrip _ hct, hsalt]
  rw [if_neg (by omega)]
  rw [if_neg (by simp [hnl])]
  simp only [haead, hutf, if_true]

/-- C1 witness: the round trip evaluated at a concrete plaintext,
password, salt and nonce under the identity AEAD instantiation. -/
theorem C1_round_trip_witness :
    Except.bind (encrypt_content idPrims [104, 36, 105] [1] (List.replicate 22 65)
        (List.replicate 12 0))
      (fun env => decrypt_content idPrims env [1]) = Except.ok [104, 36, 105] :=
  C1_round_trip idPrims [104, 36, 105] [1] (List.replicate 22 65) (List.replicate 12 0)
    (by decide) (by decide) (by decide) (by decide) (by decide) (by decide) (by decide)

/-- C2: decrypting an encryption under a different password fails with
the DecryptionFailed error (the AEAD tag-verification failure) and hence
returns no plaintext at all.  The final hypothesis is the AEAD library
contract at this instance: tag verification under the key derived from
the wrong password rejects the ciphertext (true up to the negligible
forgery probability of AES-256-GCM). -/
theorem C2_wrong_password (M : CryptoPrims)
    (content password password2 salt nonce : List Nat)
    (hne : password ≠ password2)
    (hsalt : saltFromB64 salt = some salt)
    (hnl : nonce.length = 12)
    (hnb : ∀ b ∈ nonce, b < 256)
    (hkey : 32 ≤ (M.hashPassword password salt).length)
    (hkey2 : 32 ≤ (M.hashPassword password2 salt).length)
    (hct : ∀ b ∈ M.aeadEncrypt ((M.hashPassword password salt).take 32) nonce content,
      b < 256)
    (haead : M.aeadDecrypt ((M.hashPassword password2 salt).take 32) nonce
        (M.aeadEncrypt ((M.hashPassword password salt).take 32) nonce content)
      = none) :
    Except.bind (encrypt_content M content password salt nonce)
      (fun env => decrypt_content M env password2)
      = Except.error CryptoError.decryptionFailed := by
  unfold encrypt_content
  rw [if_neg (by omega)]
  show decrypt_content M _ password2 = Except.error CryptoError.decryptionFailed
  unfold decrypt_content
  rw [splitDollar_envelope _ _ _ (saltFromB64_not_dollar _ _ hsalt)
    (base64Encode_not_dollar _) (base64Encode_not_dollar _)]
  simp only [base64_roundtrip nonce hnb, base64_roundtrip _ hct, hsalt]
  rw [if_neg (by omega)]
  rw [if_neg (by simp [hnl])]
  simp only [haead]

/-- C2 witness: a concrete wrong-password decryption under the
key-tagging AEAD instantiation. -/
theorem C2_wrong_password_witness :
    Except.bind (encrypt_content tagPrims [104] [48] (List.replicate 22 65)
        (List.replicate 12 66))
      (fun env => decrypt_content tagPrims env [49])
      = Except.error CryptoError.decryptionFailed :=
  C2_wrong_password tagPrims [104] [48] [49] (List.replicate 22 65) (List.replicate 12 66)
    (by decide) (by decide) (by decide) (by decide) (by decide) (by decide) (by decide)
    (by decide)

/-- C3: for every password, decrypt_content on an input that does not
split on '$' into exactly three parts, or on a three-part input whose
nonce or ciphertext field is not valid base64, fails with a
MalformedEnvelope-class error; the embedding is a total function, so
every such input produces this error value rather than a panic. -/
theorem C3_malformed_envelope (M : CryptoPrims) (password s : List Nat)
    (h : (splitDollar s).length ≠ 3 ∨
      ∃ a b c, splitDollar s = [a, b, c] ∧
        (base64Decode b = none ∨ base64Decode c = none)) :
    ∃ e, decrypt_content M s password = Except.error e ∧
      e.isMalformedEnvelope = true := by
  unfold decrypt_content
  rcases h with h | ⟨a, b, c, hsplit, hbad⟩
  · rcases hs : splitDollar s with _ | ⟨p1, _ | ⟨p2, _ | ⟨p3, _ | ⟨p4, ps⟩⟩⟩⟩ <;>
      simp [hs] at h ⊢ <;> rfl
  · rw [hsplit]
    rcases hbad with hb | hc
    · simp only [hb]
      exact ⟨CryptoError.nonceDecodeFailed, rfl, rfl⟩
    · rcases hbv : base64Decode b with _ | nb
      · simp only [hbv]
        exact ⟨CryptoError.nonceDecodeFailed, rfl, rfl⟩
      · simp only [hbv, hc]
        exact ⟨CryptoError.ciphertextDecodeFailed, rfl, rfl⟩

/-- C3 witness: the empty input splits into one part and is rejected as a
malformed envelope. -/
theorem C3_malformed_envelope_witness :
    ∃ e, decrypt_content idPrims [] [] = Except.error e ∧
      e.isMalformedEnvelope = true :=
  C3_malformed_envelope idPrims [] [] (Or.inl (by decide))

/-- A failed-attempt update that stays below the threshold: no lockout is
reported, the counter becomes the (possibly reset) previous counter plus
one, the time is stamped, the lockout count is untouched, and the stored
lockout expiry survives exactly when no idle reset fired. -/
theorem failStep_no_trigger (maxA now : Nat) (info : AttemptInfo)
    (h : ((if now - info.last_attempt > ATTEMPT_RESET_SECS then 0 else info.attempts) + 1)
        % U32 < maxA) :
    failStep maxA now info =
      (none,
       { attempts := ((if now - info.last_attempt > ATTEMPT_RESET_SECS then 0
            else info.attempts) + 1) % U32,
         last_attempt := now,
         locked_until := if now - info.last_attempt > ATTEMPT_RESET_SECS then none
            else info.locked_until,
         lockout_count := info.lockout_count }) := by
  unfold failStep
  split_ifs at h ⊢ with h1 <;> simp_all

/-- A failed-attempt update that reaches the threshold: the lockout
seconds are the capped exponential backoff of the current lockout count
(u64 arithmetic), the expiry is stamped that far past now, and the
lockout count is bumped. -/
theorem failStep_trigger (maxA now : Nat) (info : AttemptInfo)
    (h : maxA ≤ ((if now - info.last_attempt > ATTEMPT_RESET_SECS then 0
        else info.attempts) + 1) % U32) :
    failStep maxA now info =
      (some (min (BASE_LOCKOUT_SECS * (2 ^ info.lockout_count % U64) % U64) MAX_LOCKOUT_SECS),
       { attempts := ((if now - info.last_attempt > ATTEMPT_RESET_SECS then 0
            else info.attempts) + 1) % U32,
         last_attempt := now,
         locked_until := some (now +
           min (BASE_LOCKOUT_SECS * (2 ^ info.lockout_count % U64) % U64) MAX_LOCKOUT_SECS),
         lockout_count := (info.lockout_count + 1) % U32 }) := by
  unfold failStep
  split_ifs at h ⊢ with h1 <;> simp_all

/-- Inserting a record makes it the one the map returns for its key. -/
theorem lookup_insert_self (k : String) (v : AttemptInfo) (l : List (String × AttemptInfo)) :
    lookupInfo (insertInfo k v l) k = some v := by
  simp [insertInfo, lookupInfo]

/-- One failed attempt recorded in the same second as the previous
activity, with the per-note counter still at least two below the
threshold and the global counter below its own: the call is allowed, both
counters advance by one, and the remaining attempts count down. -/
theorem record_failed_step (now : Nat) (id : String) (tr : List (String × AttemptInfo))
    (a c i cnt : Nat) (lu : Option Nat)
    (hla : lookupInfo tr id = some ⟨i, now, none, cnt⟩)
    (ha : a + 1 < GLOBAL_MAX_ATTEMPTS) (hi : i + 1 < MAX_ATTEMPTS) :
    record_failed_attempt now id ⟨tr, ⟨a, now, lu, c⟩⟩ =
      (⟨true, none, some (MAX_ATTEMPTS - (i + 1))⟩,
       ⟨insertInfo id ⟨i + 1, now, none, cnt⟩ tr, ⟨a + 1, now, lu, c⟩⟩) := by
  have ha15 : a + 1 < 15 := by simpa [GLOBAL_MAX_ATTEMPTS] using ha
  have hi5 : i + 1 < 5 := by simpa [MAX_ATTEMPTS] using hi
  have hm1 : (i + 1) % 4294967296 = i + 1 := Nat.mod_eq_of_lt (by omega)
  have hm2 : (a + 1) % 4294967296 = a + 1 := Nat.mod_eq_of_lt (by omega)
  unfold record_failed_attempt
  rw [failStep_no_trigger GLOBAL_MAX_ATTEMPTS now ⟨a, now, lu, c⟩
    (by simp [ATTEMPT_RESET_SECS, GLOBAL_MAX_ATTEMPTS, U32]; omega)]
  simp only [hla, Option.getD_some]
  rw [failStep_no_trigger MAX_ATTEMPTS now ⟨i, now, none, cnt⟩
    (by simp [ATTEMPT_RESET_SECS, MAX_ATTEMPTS, U32]; omega)]
  simp [ATTEMPT_RESET_SECS, MAX_ATTEMPTS, GLOBAL_MAX_ATTEMPTS, U32, hm1, hm2]

/-- The fifth failed attempt on a note: the per-note counter reaches the
threshold and the first per-note lockout of 30 seconds is triggered. -/
theorem record_failed_lock (now : Nat) (id : String) (tr : List (String × AttemptInfo))
    (a c : Nat) (lu : Option Nat)
    (hla : lookupInfo tr id = some ⟨4, now, none, 0⟩)
    (ha : a + 1 < GLOBAL_MAX_ATTEMPTS) :
    record_failed_attempt now id ⟨tr, ⟨a, now, lu, c⟩⟩ =
      (⟨false, some 30, some 0⟩,
       ⟨insertInfo id ⟨5, now, some (now + 30), 1⟩ tr, ⟨a + 1, now, lu, c⟩⟩) := by
  have ha15 : a + 1 < 15 := by simpa [GLOBAL_MAX_ATTEMPTS] using ha
  have hm2 : (a + 1) % 4294967296 = a + 1 := Nat.mod_eq_of_lt (by omega)
  unfold record_failed_attempt
  rw [failStep_no_trigger GLOBAL_MAX_ATTEMPTS now ⟨a, now, lu, c⟩
    (by simp [ATTEMPT_RESET_SECS, GLOBAL_MAX_ATTEMPTS, U32]; omega)]
  simp only [hla, Option.getD_some]
  rw [failStep_trigger MAX_ATTEMPTS now ⟨4, now, none, 0⟩
    (by simp [ATTEMPT_RESET_SECS, MAX_ATTEMPTS, U32])]
  simp [ATTEMPT_RESET_SECS, MAX_ATTEMPTS, GLOBAL_MAX_ATTEMPTS, U32, hm2,
    BASE_LOCKOUT_SECS, MAX_LOCKOUT_SECS, U64]

/-- The first failed attempt against a note with no record: a fresh
record is created at one attempt, the call is allowed with four remaining
attempts, and the global record advances without locking. -/
theorem record_failed_first (now : Nat) (id : String) (tr : List (String × AttemptInfo))
    (g : AttemptInfo) (hla : lookupInfo tr id = none)
    (ha : g.attempts + 1 < GLOBAL_MAX_ATTEMPTS) :
    ∃ A lu, A ≤ g.attempts + 1 ∧ 1 ≤ A ∧
    record_failed_attempt now id ⟨tr, g⟩ =
      (⟨true, none, some 4⟩,
       ⟨insertInfo id ⟨1, now, none, 0⟩ tr, ⟨A, now, lu, g.lockout_count⟩⟩) := by
  refine ⟨((if now - g.last_attempt > ATTEMPT_RESET_SECS then 0 else g.attempts) + 1) % U32,
    if now - g.last_attempt > ATTEMPT_RESET_SECS then none else g.locked_until,
    by split_ifs <;> simp [U32] <;> omega,
    by split_ifs <;> simp [U32, GLOBAL_MAX_ATTEMPTS] at * <;> omega, ?_⟩
  unfold record_failed_attempt
  rw [failStep_no_trigger GLOBAL_MAX_ATTEMPTS now g
    (by split_ifs <;> simp [U32, GLOBAL_MAX_ATTEMPTS] at * <;> omega)]
  simp only [hla, Option.getD_none]
  rw [failStep_no_trigger MAX_ATTEMPTS now (AttemptInfo.new now)
    (by simp [AttemptInfo.new, ATTEMPT_RESET_SECS, U32, MAX_ATTEMPTS])]
  simp [AttemptInfo.new, ATTEMPT_RESET_SECS, MAX_ATTEMPTS, U32]

/-- C4: starting from a resource id with no record, with the global
counter far enough below its threshold not to interfere, five
record_failed_attempt calls return allowed with remaining attempts
4, 3, 2, 1 and then denied with a positive retry_after_secs of 30
seconds, leaving the resource locked until 30 seconds past the call. -/
theorem C4_fresh_resource_threshold (st : LimiterState) (id : String) (now : Nat)
    (hfresh : lookupInfo st.tracker id = none)
    (hg : st.globalInfo.attempts ≤ 9) :
    (recordFailSeq id (List.replicate 5 now) st).1 =
      [⟨true, none, some 4⟩, ⟨true, none, some 3⟩, ⟨true, none, some 2⟩,
       ⟨true, none, some 1⟩, ⟨false, some 30, some 0⟩]
    ∧ (∃ retry, (recordFailSeq id (List.replicate 5 now) st).1.getLast?
        = some ⟨false, some retry, some 0⟩ ∧ 0 < retry)
    ∧ ∃ info, lookupInfo (recordFailSeq id (List.replicate 5 now) st).2.tracker id
        = some info ∧ info.locked_until = some (now + 30) ∧ now < now + 30 := by
  obtain ⟨tr, g⟩ := st
  simp only at hfresh hg
  obtain ⟨A, lu, hA, hA1, e1⟩ := record_failed_first now id tr g hfresh
    (by simp [GLOBAL_MAX_ATTEMPTS]; omega)
  have e2 := record_failed_step now id (insertInfo id ⟨1, now, none, 0⟩ tr)
    A g.lockout_count 1 0 lu (lookup_insert_self _ _ _)
    (by simp [GLOBAL_MAX_ATTEMPTS]; omega) (by simp [MAX_ATTEMPTS])
  have e3 := record_failed_step now id
    (insertInfo id ⟨2, now, none, 0⟩ (insertInfo id ⟨1, now, none, 0⟩ tr))
    (A + 1) g.lockout_count 2 0 lu (lookup_insert_self _ _ _)
    (by simp [GLOBAL_MAX_ATTEMPTS]; omega) (by simp [MAX_ATTEMPTS])
  have e4 := record_failed_step now id
    (insertInfo id ⟨3, now, none, 0⟩ (insertInfo id ⟨2, now, none, 0⟩
      (insertInfo id ⟨1, now, none, 0⟩ tr)))
    (A + 1 + 1) g.lockout_count 3 0 lu (lookup_insert_self _ _ _)
    (by simp [GLOBAL_MAX_ATTEMPTS]; omega) (by simp [MAX_ATTEMPTS])
  have e5 := record_failed_lock now id
    (insertInfo id ⟨4, now, none, 0⟩ (insertInfo id ⟨3, now, none, 0⟩
      (insertInfo id ⟨2, now, none, 0⟩ (insertInfo id ⟨1, now, none, 0⟩ tr))))
    (A + 1 + 1 + 1) g.lockout_count lu (lookup_insert_self _ _ _)
    (by simp [GLOBAL_MAX_ATTEMPTS]; omega)
  simp only [List.replicate, recordFailSeq, e1, e2, e3, e4, e5]
  refine ⟨by norm_num [MAX_ATTEMPTS], ⟨30, by norm_num, by norm_num⟩,
    ⟨5, now, some (now + 30), 1⟩, by simp [lookup_insert_self], rfl, by omega⟩

/-- C4 witness: the five calls evaluated from the initial limiter
state. -/
theorem C4_fresh_resource_threshold_witness :
    (recordFailSeq "k" (List.replicate 5 7) initState).1 =
      [⟨true, none, some 4⟩, ⟨true, none, some 3⟩, ⟨true, none, some 2⟩,
       ⟨true, none, some 1⟩, ⟨false, some 30, some 0⟩]
    ∧ (∃ retry, (recordFailSeq "k" (List.replicate 5 7) initState).1.getLast?
        = some ⟨false, some retry, some 0⟩ ∧ 0 < retry)
    ∧ ∃ info, lookupInfo (recordFailSeq "k" (List.replicate 5 7) initState).2.tracker "k"
        = some info ∧ info.locked_until = some (7 + 30) ∧ 7 < 7 + 30 :=
  C4_fresh_resource_threshold initState "k" 7 (by decide) (by decide)

/-- A key bound in the map stays bound, with the same record, under any
filter that keeps its entry. -/
theorem lookup_filter_some (p : String × AttemptInfo → Bool) :
    ∀ (l : List (String × AttemptInfo)) (k : String) (v : AttemptInfo),
    lookupInfo l k = some v → p (k, v) = true → lookupInfo (l.filter p) k = some v
  | [], k, v, h, _ => by simp [lookupInfo] at h
  | e :: rest, k, v, h, hp => by
      by_cases he : e.1 = k
      · have hv : e.2 = v := by simpa [lookupInfo, he] using h
        have he2 : e = (k, v) := by rw [← he, ← hv]
        rw [List.filter_cons, he2]
        simp [hp, lookupInfo]
      · have h2 := lookup_filter_some p rest k v (by simpa [lookupInfo, he] using h) hp
        rw [List.filter_cons]
        split <;> simp [lookupInfo, he, h2]

/-- An unbound key stays unbound under any filter. -/
theorem lookup_filter_none (p : String × AttemptInfo → Bool) :
    ∀ (l : List (String × AttemptInfo)) (k : String),
    lookupInfo l k = none → lookupInfo (l.filter p) k = none
  | [], _, _ => rfl
  | e :: rest, k, h => by
      have he : e.1 ≠ k := by
        intro he; simp [lookupInfo, he] at h
      have h2 := lookup_filter_none p rest k (by simpa [lookupInfo, he] using h)
      rw [List.filter_cons]
      split <;> simp [lookupInfo, he, h2]

/-- A key absent from the key list is unbound. -/
theorem lookup_eq_none_of_not_mem (l : List (String × AttemptInfo)) (k : String)
    (h : k ∉ l.map Prod.fst) : lookupInfo l k = none := by
  induction l with
  | nil => rfl
  | cons e rest ih =>
      rw [List.map_cons] at h
      have h1 : e.1 ≠ k := fun he => h (by rw [he]; exact List.mem_cons_self _ _)
      have h2 : k ∉ rest.map Prod.fst := fun hm => h (List.mem_cons_of_mem _ hm)
      simp [lookupInfo, h1, ih h2]

/-- With distinct keys, filtering out the entry of a key leaves the key
unbound. -/
theorem lookup_filter_removed (p : String × AttemptInfo → Bool)
    (l : List (String × AttemptInfo)) (k : String) (v : AttemptInfo)
    (hnd : (l.map Prod.fst).Nodup)
    (h : lookupInfo l k = some v) (hp : p (k, v) = false) :
    lookupInfo (l.filter p) k = none := by
  induction l with
  | nil => simp [lookupInfo] at h
  | cons e rest ih =>
      rw [List.map_cons] at hnd
      obtain ⟨hke, hndr⟩ := List.nodup_cons.mp hnd
      by_cases he : e.1 = k
      · have hv : e.2 = v := by simpa [lookupInfo, he] using h
        have he2 : e = (k, v) := by rw [← he, ← hv]
        have hrest : lookupInfo rest k = none :=
          lookup_eq_none_of_not_mem rest k (by rw [← he]; exact hke)
        rw [List.filter_cons, he2]
        simp [hp]
        exact lookup_filter_none p rest k hrest
      · have h2 := ih hndr (by simpa [lookupInfo, he] using h)
        rw [List.filter_cons]
        split <;> simp [lookupInfo, he, h2]

/-- C5 counterexample: a limiter state whose global record still holds a
lockout expiry in the future (480, checked at time 301) but whose last
global attempt is older than the reset window.  The claim requires check
to deny; check_rate_limit skips the idle global lockout and returns
allowed with the full five attempts. -/
theorem C5_counterexample :
    (⟨[], ⟨15, 0, some 480, 5⟩⟩ : LimiterState).globalInfo.locked_until = some 480
    ∧ 301 < 480
    ∧ (check_rate_limit 301 "n" ⟨[], ⟨15, 0, some 480, 5⟩⟩).1 = ⟨true, none, some 5⟩ := by
  decide

/-- C5 amended: the global lockout denies a check only when the global
record is also within the idle-reset window; a still-locked per-resource
record denies regardless; otherwise check allows with the per-resource
remaining count, which is the maximum of five both when no record exists
and when the stale unlocked record was just evicted, and MAX_ATTEMPTS
minus the stored counter for a surviving record. -/
theorem C5_check_spec (now : Nat) (id : String) (st : LimiterState)
    (hnd : (st.tracker.map Prod.fst).Nodup) :
    (∀ lu, st.globalInfo.locked_until = some lu → now < lu →
      now - st.globalInfo.last_attempt ≤ ATTEMPT_RESET_SECS →
      (check_rate_limit now id st).1 = ⟨false, some (lu - now + 1), none⟩)
    ∧ (globalLockBlock now st.globalInfo = none →
        (∀ info lu, lookupInfo st.tracker id = some info →
          info.locked_until = some lu → now < lu →
          (check_rate_limit now id st).1 = ⟨false, some (lu - now + 1), none⟩)
        ∧ (lookupInfo st.tracker id = none →
            (check_rate_limit now id st).1 = ⟨true, none, some MAX_ATTEMPTS⟩)
        ∧ (∀ info, lookupInfo st.tracker id = some info →
            (∀ lu, info.locked_until = some lu → lu ≤ now) →
            ATTEMPT_RESET_SECS * 2 ≤ now - info.last_attempt →
            (check_rate_limit now id st).1 = ⟨true, none, some MAX_ATTEMPTS⟩)
        ∧ (∀ info, lookupInfo st.tracker id = some info →
            (∀ lu, info.locked_until = some lu → lu ≤ now) →
            now - info.last_attempt < ATTEMPT_RESET_SECS * 2 →
            (check_rate_limit now id st).1 = ⟨true, none, some (remainingOf info)⟩)) := by
  constructor
  · intro lu hlu hfut hrecent
    have h1 : ¬ now - st.globalInfo.last_attempt > ATTEMPT_RESET_SECS := by omega
    simp [check_rate_limit, globalLockBlock, hlu, hfut, h1]
  · intro hgb
    refine ⟨?_, ?_, ?_, ?_⟩
    · intro info lu hla hlocked hfut
      have hkeep : lookupInfo (cleanup_old_entries now st.tracker) id = some info := by
        unfold cleanup_old_entries
        exact lookup_filter_some _ st.tracker id info hla (by simp [hlocked, hfut])
      simp [check_rate_limit, hgb, hkeep, hlocked, hfut]
    · intro hla
      have hnone : lookupInfo (cleanup_old_entries now st.tracker) id = none := by
        unfold cleanup_old_entries
        exact lookup_filter_none _ st.tracker id hla
      simp [check_rate_limit, hgb, hnone]
    · intro info hla hexp hstale
      have hnone : lookupInfo (cleanup_old_entries now st.tracker) id = none := by
        unfold cleanup_old_entries
        refine lookup_filter_removed _ st.tracker id info hnd hla ?_
        cases hcase : info.locked_until with
        | none => simp [hcase]; omega
        | some lu =>
            have h1 := hexp lu hcase
            simp [hcase]
            omega
      simp [check_rate_limit, hgb, hnone]
    · intro info hla hexp hfresh
      have hkeep : lookupInfo (cleanup_old_entries now st.tracker) id = some info := by
        unfold cleanup_old_entries
        exact lookup_filter_some _ st.tracker id info hla (by simp; omega)
      cases hcase : info.locked_until with
      | none => simp [check_rate_limit, hgb, hkeep, hcase]
      | some lu =>
          have h1 := hexp lu hcase
          have h2 : ¬ now < lu := by omega
          simp [check_rate_limit, hgb, hkeep, hcase, h2]

/-- C5 amended witness: a still-locked resource record is denied with the
rounded-up seconds remaining. -/
theorem C5_check_spec_witness :
    (check_rate_limit 5 "k" ⟨[("k", ⟨5, 0, some 10, 1⟩)], ⟨3, 0, none, 0⟩⟩).1
      = ⟨false, some 6, none⟩ :=
  ((C5_check_spec 5 "k" ⟨[("k", ⟨5, 0, some 10, 1⟩)], ⟨3, 0, none, 0⟩⟩
      (by decide)).2 (by decide)).1 ⟨5, 0, some 10, 1⟩ 10 (by decide) rfl (by decide)

/-- C6 counterexample: with the global counter one below its threshold,
a failed attempt on a note with no record triggers the global lockout and
returns it, and the per-resource record is not created or updated (the
claim requires it to still be incremented on such a call). -/
theorem C6_counterexample :
    (record_failed_attempt 5 "a" ⟨[], ⟨14, 0, none, 0⟩⟩).1 = ⟨false, some 30, some 0⟩
    ∧ lookupInfo (record_failed_attempt 5 "a" ⟨[], ⟨14, 0, none, 0⟩⟩).2.tracker "a"
        = none := by
  decide

/-- C6 amended: record_failed_attempt updates the global record first;
when the global lockout triggers on the call it returns that lockout at
once and leaves the per-resource store untouched; otherwise it updates
the per-resource record the same way and returns the per-resource
lockout if one trips, else the remaining per-resource attempts. -/
theorem C6_record_failure_spec (now : Nat) (id : String) (st : LimiterState) :
    (∀ L g1, failStep GLOBAL_MAX_ATTEMPTS now st.globalInfo = (some L, g1) →
      record_failed_attempt now id st =
        (⟨false, some L, some 0⟩, ⟨st.tracker, g1⟩))
    ∧ (∀ g1, failStep GLOBAL_MAX_ATTEMPTS now st.globalInfo = (none, g1) →
        (∀ L info1,
          failStep MAX_ATTEMPTS now ((lookupInfo st.tracker id).getD (AttemptInfo.new now))
            = (some L, info1) →
          record_failed_attempt now id st =
            (⟨false, some L, some 0⟩, ⟨insertInfo id info1 st.tracker, g1⟩))
        ∧ (∀ info1,
          failStep MAX_ATTEMPTS now ((lookupInfo st.tracker id).getD (AttemptInfo.new now))
            = (none, info1) →
          record_failed_attempt now id st =
            (⟨true, none, some (MAX_ATTEMPTS - info1.attempts)⟩,
             ⟨insertInfo id info1 st.tracker, g1⟩))) := by
  refine ⟨?_, fun g1 hg => ⟨?_, ?_⟩⟩
  · intro L g1 h
    unfold record_failed_attempt
    simp only [h]
  · intro L info1 h
    unfold record_failed_attempt
    simp only [hg, h]
  · intro info1 h
    unfold record_failed_attempt
    simp only [hg, h]

/-- C6 amended witness: the early-return branch evaluated at the
counterexample state. -/
theorem C6_record_failure_spec_witness :
    record_failed_attempt 5 "a" ⟨[], ⟨14, 0, none, 0⟩⟩
      = (⟨false, some 30, some 0⟩, ⟨[], ⟨15, 5, some 35, 1⟩⟩) :=
  (C6_record_failure_spec 5 "a" ⟨[], ⟨14, 0, none, 0⟩⟩).1 30 ⟨15, 5, some 35, 1⟩
    (by decide)

/-- C7: along 67 consecutive failed attempts on one fresh record the
assigned lockout durations follow the capped doubling formula
min(30 * 2 ^ (n - 1), 600) for the first 63 lockouts, but the 64th
lockout computes 30 * 2 ^ 63 in u64, which wraps to 0 in a release
build (the claimed formula gives 600), so the 64th lockout lasts zero
seconds; a debug build panics on the overflow instead. -/
theorem C7_backoff_overflow :
    lockoutTrace MAX_ATTEMPTS (List.replicate 67 0) (AttemptInfo.new 0)
      = (List.range 63).map (fun i => min (30 * 2 ^ i) 600)
    ∧ (lockoutTrace MAX_ATTEMPTS (List.replicate 68 0) (AttemptInfo.new 0)).getLast?
        = some 0
    ∧ min (30 * 2 ^ 63) 600 = 600 := by
  refine ⟨by decide, by decide, by decide⟩

/-- Removing a key leaves it unbound. -/
theorem lookup_removeKey_self (k : String) : ∀ l, lookupInfo (removeKey k l) k = none
  | [] => rfl
  | e :: rest => by
      by_cases he : e.1 = k <;>
        simp [removeKey, he, lookupInfo, lookup_removeKey_self k rest]

/-- Removing a key leaves every other key bound exactly as before. -/
theorem lookup_removeKey_other (k k2 : String) (hne : k2 ≠ k) :
    ∀ l, lookupInfo (removeKey k l) k2 = lookupInfo l k2
  | [] => rfl
  | e :: rest => by
      have ih := lookup_removeKey_other k k2 hne rest
      by_cases he : e.1 = k
      · have h2 : e.1 ≠ k2 := by rw [he]; exact fun h => hne h.symm
        simp [removeKey, he, lookupInfo, h2, ih, Ne.symm hne]
      · simp [removeKey, he, lookupInfo, ih]

/-- When the global step does not trigger, the state after
record_failed_attempt carries exactly its updated global record. -/
theorem record_failed_global (now : Nat) (id : String) (st : LimiterState)
    (g1 : AttemptInfo)
    (h : failStep GLOBAL_MAX_ATTEMPTS now st.globalInfo = (none, g1)) :
    (record_failed_attempt now id st).2.globalInfo = g1 := by
  unfold record_failed_attempt
  rcases hfs : failStep MAX_ATTEMPTS now
      ((lookupInfo st.tracker id).getD (AttemptInfo.new now)) with ⟨_ | L, info1⟩ <;>
    simp only [h, hfs]

/-- Across a run of same-second failures that never reaches the global
threshold, the global counter grows by at most one per call, the stored
global lockout expiry is preserved or cleared, and the stamp is the old
one or the call time. -/
theorem recordFailSeq_global_quiet (id : String) (now : Nat) :
    ∀ (n : Nat) (st : LimiterState),
    st.globalInfo.attempts + n < GLOBAL_MAX_ATTEMPTS →
    (recordFailSeq id (List.replicate n now) st).2.globalInfo.attempts
        ≤ st.globalInfo.attempts + n
    ∧ ((recordFailSeq id (List.replicate n now) st).2.globalInfo.locked_until
          = st.globalInfo.locked_until
        ∨ (recordFailSeq id (List.replicate n now) st).2.globalInfo.locked_until = none)
    ∧ ((recordFailSeq id (List.replicate n now) st).2.globalInfo.last_attempt
          = st.globalInfo.last_attempt
        ∨ (recordFailSeq id (List.replicate n now) st).2.globalInfo.last_attempt = now)
  | 0, st, _ => by simp [recordFailSeq, List.replicate]
  | n + 1, st, h => by
      have h15 : st.globalInfo.attempts + (n + 1) < 15 := by
        simpa [GLOBAL_MAX_ATTEMPTS] using h
      have hstep := failStep_no_trigger GLOBAL_MAX_ATTEMPTS now st.globalInfo
        (by split_ifs <;> simp [U32, GLOBAL_MAX_ATTEMPTS] <;> omega)
      set g1 : AttemptInfo :=
        { attempts := ((if now - st.globalInfo.last_attempt > ATTEMPT_RESET_SECS then 0
            else st.globalInfo.attempts) + 1) % U32,
          last_attempt := now,
          locked_until := if now - st.globalInfo.last_attempt > ATTEMPT_RESET_SECS then none
            else st.globalInfo.locked_until,
          lockout_count := st.globalInfo.lockout_count } with hg1
      have hga : g1.attempts ≤ st.globalInfo.attempts + 1 := by
        rw [hg1]; split_ifs <;> simp [U32] <;> omega
      have hglob := record_failed_global now id st g1 hstep
      have hrest := recordFailSeq_global_quiet id now n
        ((record_failed_attempt now id st).2)
        (by rw [hglob]; simp [GLOBAL_MAX_ATTEMPTS] at *; omega)
      simp only [List.replicate, recordFailSeq]
      rcases hcall : record_failed_attempt now id st with ⟨r, st1⟩
      rw [hcall] at hglob hrest
      simp only at hglob hrest ⊢
      obtain ⟨ha, hlu, hla⟩ := hrest
      have hea : st1.globalInfo.attempts = g1.attempts := by rw [hglob]
      refine ⟨by omega, ?_, ?_⟩
      · rcases hlu with h1 | h1
        · rw [h1, hglob, hg1]
          split_ifs with hi
          · right; rfl
          · left; rfl
        · right; exact h1
      · rcases hla with h1 | h1
        · rw [h1, hglob, hg1]
          right; rfl
        · right; exact h1

/-- C8: record_successful_attempt deletes exactly the per-resource record
(leaving every other key and the whole global record untouched), and
after any run of up to four same-second failures on a fresh resource that
stays below the global threshold, a success followed by a check on that
resource reports allowed with the full five attempts. -/
theorem C8_success_reset (st : LimiterState) (id : String) (now n : Nat)
    (hn : n ≤ 4)
    (hfresh : lookupInfo st.tracker id = none)
    (hg : st.globalInfo.attempts + n < GLOBAL_MAX_ATTEMPTS)
    (hlock : ∀ lu, st.globalInfo.locked_until = some lu → lu ≤ now) :
    (∀ st2 : LimiterState,
      (record_successful_attempt id st2).globalInfo = st2.globalInfo
      ∧ lookupInfo (record_successful_attempt id st2).tracker id = none
      ∧ ∀ k, k ≠ id →
          lookupInfo (record_successful_attempt id st2).tracker k
            = lookupInfo st2.tracker k)
    ∧ (check_rate_limit now id
        (record_successful_attempt id (recordFailSeq id (List.replicate n now) st).2)).1
      = ⟨true, none, some MAX_ATTEMPTS⟩ := by
  refine ⟨fun st2 => ⟨rfl, lookup_removeKey_self id st2.tracker,
    fun k hk => lookup_removeKey_other id k hk st2.tracker⟩, ?_⟩
  obtain ⟨hA, hLU, hLA⟩ := recordFailSeq_global_quiet id now n st hg
  set stN := (recordFailSeq id (List.replicate n now) st).2 with hstN
  have hgb : globalLockBlock now stN.globalInfo = none := by
    unfold globalLockBlock
    split_ifs with h1
    · rfl
    · rcases hLU with h | h <;> rw [h]
      cases hcase : st.globalInfo.locked_until with
      | none => rfl
      | some lu =>
          have h2 := hlock lu hcase
          have h3 : ¬ now < lu := by omega
          simp [h3]
  have hnone : lookupInfo (cleanup_old_entries now (removeKey id stN.tracker)) id = none := by
    unfold cleanup_old_entries
    exact lookup_filter_none _ _ _ (lookup_removeKey_self id stN.tracker)
  simp [check_rate_limit, record_successful_attempt, hgb, hnone]

/-- C8 witness: two failures, one success and a check evaluated from the
initial state. -/
theorem C8_success_reset_witness :
    (check_rate_limit 3 "k"
      (record_successful_attempt "k" (recordFailSeq "k" (List.replicate 2 3) initState).2)).1
      = ⟨true, none, some MAX_ATTEMPTS⟩ :=
  (C8_success_reset initState "k" 3 2 (by decide) (by decide) (by decide)
    (fun lu h => nomatch h)).2

/-- C9 counterexample: a resource locked for 30 seconds at time 0 has its
lockout expire by time 31, yet the next failed attempt at time 31 does
not start a fresh counting cycle: the stale counter of 5 is incremented
past the threshold and a second, doubled lockout of 60 seconds triggers
at once. -/
theorem C9_counterexample :
    lookupInfo (recordFailSeq "note" (List.replicate 5 0) initState).2.tracker "note"
      = some ⟨5, 0, some 30, 1⟩
    ∧ 30 ≤ 31
    ∧ (record_failed_attempt 31 "note"
        (recordFailSeq "note" (List.replicate 5 0) initState).2).1
      = ⟨false, some 60, some 0⟩ := by
  decide

/-- C9 amended: after a lockout expires, a failed attempt starts a new
counting cycle only when the record has also been idle past the reset
window (the counter restarts at one and no lockout triggers); a failed
attempt within the reset window of the last activity keeps the stale
counter, so at or past the threshold it immediately triggers the next
backoff lockout; a successful attempt always jumps the key to Fresh by
deleting its record outright. -/
theorem C9_lockout_expiry_spec :
    (∀ maxA now : Nat, ∀ info : AttemptInfo, 1 < maxA →
      ATTEMPT_RESET_SECS < now - info.last_attempt →
      failStep maxA now info = (none, ⟨1, now, none, info.lockout_count⟩))
    ∧ (∀ maxA now : Nat, ∀ info : AttemptInfo, ∀ lu,
        info.locked_until = some lu → lu ≤ now →
        now - info.last_attempt ≤ ATTEMPT_RESET_SECS →
        maxA ≤ (info.attempts + 1) % U32 →
        (failStep maxA now info).1
          = some (min (BASE_LOCKOUT_SECS * (2 ^ info.lockout_count % U64) % U64)
              MAX_LOCKOUT_SECS))
    ∧ (∀ id : String, ∀ st : LimiterState,
        lookupInfo (record_successful_attempt id st).tracker id = none) := by
  refine ⟨?_, ?_, fun id st => lookup_removeKey_self id st.tracker⟩
  · intro maxA now info hmax hidle
    rw [failStep_no_trigger maxA now info (by rw [if_pos hidle]; simp [U32]; omega)]
    simp [if_pos hidle, U32]
  · intro maxA now info lu hlu hexp hrecent hthr
    have hni : ¬ now - info.last_attempt > ATTEMPT_RESET_SECS := by omega
    rw [failStep_trigger maxA now info (by rw [if_neg hni]; exact hthr)]

/-- C9 amended witness: a failed attempt 301 seconds after the last one
restarts the cycle at one attempt without locking. -/
theorem C9_lockout_expiry_spec_witness :
    failStep 5 301 ⟨3, 0, none, 2⟩ = (none, ⟨1, 301, none, 2⟩) :=
  C9_lockout_expiry_spec.1 5 301 ⟨3, 0, none, 2⟩ (by decide) (by decide)

/-- The state returned by check_rate_limit: untouched on a global-gate
denial, otherwise the same state with the swept tracker. -/
theorem check_state_eq (now : Nat) (id : String) (st : LimiterState) :
    (check_rate_limit now id st).2
      = match globalLockBlock now st.globalInfo with
        | some _ => st
        | none => { st with tracker := cleanup_old_entries now st.tracker } := by
  unfold check_rate_limit
  rcases hgb : globalLockBlock now st.globalInfo with _ | r
  · rcases hl : lookupInfo (cleanup_old_entries now st.tracker) id with _ | info
    · simp [hl]
    · rcases hlu : info.locked_until with _ | lu
      · simp [hl, hlu]
      · by_cases hf : now < lu <;> simp [hl, hlu, hf]
  · rfl

/-- The sweep retains an entry exactly when it is still locked or was
active within twice the reset window. -/
theorem retainCond_iff (now : Nat) (e : String × AttemptInfo) :
    ((match e.2.locked_until with
      | some lu => decide (now < lu)
      | none => false)
     || decide (now - e.2.last_attempt < ATTEMPT_RESET_SECS * 2)) = true
    ↔ ((∃ lu, e.2.locked_until = some lu ∧ now < lu)
        ∨ now - e.2.last_attempt < ATTEMPT_RESET_SECS * 2) := by
  cases hlu : e.2.locked_until <;> simp [hlu]

/-- C10 counterexample: a check denied by the global gate returns without
sweeping, so a surviving entry can be both unlocked and stale (idle for
1000 seconds, beyond the 600-second horizon), against the claim that
every surviving entry is locked or recently active after any check. -/
theorem C10_counterexample :
    (check_rate_limit 1000 "x"
        ⟨[("old", ⟨1, 0, none, 0⟩)], ⟨15, 1000, some 2000, 1⟩⟩).2.tracker
      = [("old", ⟨1, 0, none, 0⟩)]
    ∧ (⟨1, 0, none, 0⟩ : AttemptInfo).locked_until = none
    ∧ ATTEMPT_RESET_SECS * 2 ≤ 1000 - (⟨1, 0, none, 0⟩ : AttemptInfo).last_attempt := by
  decide

/-- C10 amended: check_rate_limit never modifies the global record and
never modifies any retained entry; a call denied by the global gate
leaves the whole state untouched; a call that reaches the per-resource
stage removes exactly the entries that are unlocked and stale, and every
entry surviving such a call is currently locked or was active within
twice the reset window. -/
theorem C10_check_frame (now : Nat) (id : String) (st : LimiterState) :
    (check_rate_limit now id st).2.globalInfo = st.globalInfo
    ∧ (∀ e, e ∈ (check_rate_limit now id st).2.tracker → e ∈ st.tracker)
    ∧ (∀ r, globalLockBlock now st.globalInfo = some r → (check_rate_limit now id st).2 = st)
    ∧ (globalLockBlock now st.globalInfo = none →
        (∀ e, e ∈ st.tracker → e ∈ (check_rate_limit now id st).2.tracker ∨
          ((∀ lu, e.2.locked_until = some lu → lu ≤ now)
            ∧ ATTEMPT_RESET_SECS * 2 ≤ now - e.2.last_attempt))
        ∧ (∀ e, e ∈ (check_rate_limit now id st).2.tracker →
            (∃ lu, e.2.locked_until = some lu ∧ now < lu)
            ∨ now - e.2.last_attempt < ATTEMPT_RESET_SECS * 2)) := by
  rw [check_state_eq]
  rcases hgb : globalLockBlock now st.globalInfo with _ | r
  · refine ⟨rfl, ?_, ?_, ?_⟩
    · intro e he
      exact List.mem_of_mem_filter he
    · intro r hr
      simp [hgb] at hr
    · intro _
      constructor
      · intro e he
        by_cases hp : ((match e.2.locked_until with
            | some lu => decide (now < lu)
            | none => false)
          || decide (now - e.2.last_attempt < ATTEMPT_RESET_SECS * 2)) = true
        · left
          exact List.mem_filter.mpr ⟨he, hp⟩
        · right
          rw [retainCond_iff] at hp
          push_neg at hp
          obtain ⟨h1, h2⟩ := hp
          exact ⟨fun lu hlu => by have := h1 lu hlu; omega, by omega⟩
      · intro e he
        have hp := (List.mem_filter.mp he).2
        exact (retainCond_iff now e).mp hp
  · refine ⟨rfl, fun e he => he, fun r2 hr2 => rfl, ?_⟩
    intro hnone
    simp [hgb] at hnone

/-- C10 amended witness: the global record is untouched by a concrete
check call. -/
theorem C10_check_frame_witness :
    (check_rate_limit 9 "k" ⟨[("k", ⟨1, 2, none, 0⟩)], ⟨0, 0, none, 0⟩⟩).2.globalInfo
      = (⟨[("k", ⟨1, 2, none, 0⟩)], ⟨0, 0, none, 0⟩⟩ : LimiterState).globalInfo :=
  (C10_check_frame 9 "k" ⟨[("k", ⟨1, 2, none, 0⟩)], ⟨0, 0, none, 0⟩⟩).1
